import Mathlib

/-!
Verification development for the ad-copy agent pipeline
(`app/agent.py`, `app/conversation_manager.py`).

Text is modelled as `List Char`.  Python string operations are embedded as
executable Lean functions over that type.  Character classes follow the ASCII
behaviour of the corresponding Python operations (the repository only feeds
ASCII markers and vocabularies through them).
-/

/-- Text, modelled as a list of characters. -/
abbrev Str := List Char

/-- Coerce a Lean string literal to the `Str` model. -/
def S (s : String) : Str := s.data

/-- ASCII whitespace, mirroring Python's `str.strip` / regex `\s` class. -/
def isPySpace (c : Char) : Bool :=
  c = ' ' || c = '\t' || c = '\n' || c = '\r' || c = '\x0b' || c = '\x0c'

/-- Python `str.strip()`. -/
def trimL (s : Str) : Str :=
  ((s.dropWhile isPySpace).reverse.dropWhile isPySpace).reverse

/-- ASCII lower-casing of one character (Python `str.lower` on ASCII input). -/
def lowerChar (c : Char) : Char :=
  if 'A' ≤ c && c ≤ 'Z' then Char.ofNat (c.toNat + 32) else c

/-- Python `str.lower()`. -/
def lowerL (s : Str) : Str := s.map lowerChar

/-- Python substring test `needle in hay`. -/
def strIn (needle hay : Str) : Bool :=
  match hay with
  | [] => needle.isEmpty
  | _ :: t => needle.isPrefixOf hay || strIn needle t

/-- Split on a separator character, keeping empty segments
(Python `str.split(sep)` for a one-character separator). -/
def splitOnChar (sep : Char) : Str → List Str
  | [] => [[]]
  | c :: cs =>
    let r := splitOnChar sep cs
    if c = sep then [] :: r
    else
      match r with
      | h :: t => (c :: h) :: t
      | [] => [[c]]

/-- Python `str.splitlines()` restricted to `'\n'` boundaries: like splitting
on `'\n'` but without a trailing empty segment when the text ends in `'\n'`. -/
def pySplitlines (s : Str) : List Str :=
  if s.isEmpty then []
  else
    let parts := splitOnChar '\n' s
    if s.getLast? = some '\n' then parts.dropLast else parts

/-- Everything after the first `':'` (Python `s.split(":", 1)[1]`; all call
sites guarantee a colon is present, a colon-free input yields `[]`). -/
def afterColon : Str → Str
  | [] => []
  | c :: cs => if c = ':' then cs else afterColon cs

/-- Python `sep.join(parts)`. -/
def joinSep (sep : Str) : List Str → Str
  | [] => []
  | [x] => x
  | x :: y :: xs => x ++ sep ++ joinSep sep (y :: xs)

/-- Maximal runs of characters satisfying `p`
(the semantics of `re.findall("[class]+", s)`). -/
def runsAux (p : Char → Bool) (buf : Str) : Str → List Str
  | [] => if buf.isEmpty then [] else [buf.reverse]
  | c :: cs =>
    if p c then runsAux p (c :: buf) cs
    else if buf.isEmpty then runsAux p [] cs
    else buf.reverse :: runsAux p [] cs

/-- Lower-case alphanumeric character class `[a-z0-9]`. -/
def isLowerAlnum (c : Char) : Bool :=
  ('a' ≤ c && c ≤ 'z') || ('0' ≤ c && c ≤ '9')

/-- Python `re.findall(r"[a-z0-9]+", s)`. -/
def tokensOf (s : Str) : List Str := runsAux isLowerAlnum [] s

/-- Deduplication keeping the first occurrence of each element. -/
def dedupAux (seen : List Str) : List Str → List Str
  | [] => []
  | x :: xs =>
    if seen.contains x then dedupAux seen xs
    else x :: dedupAux (x :: seen) xs

/-! ## `app/agent.py`: mode detection -/

def MODE_FULL : Str := S "full"
def MODE_HEADLINE : Str := S "headline"
def MODE_KEYWORDS5 : Str := S "keywords5"

/-- `_detect_mode` from `app/agent.py`. -/
def detect_mode (prompt : Str) : Str :=
  let p := lowerL prompt
  if strIn (S "task:") p then
    if (strIn (S "write only") p && strIn (S "headline") p) || strIn (S "headline only") p then
      MODE_HEADLINE
    else if strIn (S "5 keywords") p || strIn (S "five keywords") p
        || strIn (S "keywords that must be included") p then
      MODE_KEYWORDS5
    else MODE_FULL
  else
    if strIn (S "headline only") p || (strIn (S "write only") p && strIn (S "headline") p) then
      MODE_HEADLINE
    else if strIn (S "5 keywords") p || strIn (S "five keywords") p then
      MODE_KEYWORDS5
    else MODE_FULL

/-! ## `app/agent.py`: output-format validators

The two regexes `_FULL_FORMAT_REGEX` and `_HEADLINE_ONLY_REGEX` are embedded
as deterministic stream matchers: `\s` matches one ASCII whitespace
character, `[^\n]+` runs to the next newline (or the end of the text). -/

/-- Consume `hdr` followed by one `\s` character, returning the remainder. -/
def afterHeader (hdr : Str) (s : Str) : Option Str :=
  if hdr.isPrefixOf s then
    match s.drop hdr.length with
    | c :: rest => if isPySpace c then some rest else none
    | [] => none
  else none

/-- Consume up to and including the next `'\n'`. -/
def chompToNl : Str → Option Str
  | [] => none
  | c :: cs => if c = '\n' then some cs else chompToNl cs

/-- Consume `[^\n]+` followed by `'\n'`, returning the remainder. -/
def plusLineNl : Str → Option Str
  | [] => none
  | c :: cs => if c = '\n' then none else chompToNl cs

/-- Consume an exact literal, returning the remainder. -/
def stripExact (p s : Str) : Option Str :=
  if p.isPrefixOf s then some (s.drop p.length) else none

/-- Consume one regex segment `hdr\s[^\n]+\n`. -/
def headerSeg (hdr : Str) (s : Str) : Option Str :=
  (afterHeader hdr s).bind plusLineNl

/-- `_FULL_FORMAT_REGEX.fullmatch` from `app/agent.py`:
`^Headline:\s[^\n]+\nBullets:\n(?:-\s[^\n]+\n){5}Short description:\s[^\n]+\n`
`Keywords:\s[^\n]+\nPublishing tips:\s[^\n]+$`. -/
def full_format_match (t : Str) : Bool :=
  let rest :=
    (headerSeg (S "Headline:") t).bind fun r =>
    (stripExact (S "Bullets:\n") r).bind fun r =>
    (headerSeg (S "-") r).bind fun r =>
    (headerSeg (S "-") r).bind fun r =>
    (headerSeg (S "-") r).bind fun r =>
    (headerSeg (S "-") r).bind fun r =>
    (headerSeg (S "-") r).bind fun r =>
    (headerSeg (S "Short description:") r).bind fun r =>
    (headerSeg (S "Keywords:") r).bind fun r =>
    afterHeader (S "Publishing tips:") r
  match rest with
  | some r => !r.isEmpty && r.all (fun c => c != '\n')
  | none => false

/-- `_HEADLINE_ONLY_REGEX.fullmatch` from `app/agent.py`:
`^Headline:\s[^\n]{3,200}$`. -/
def headline_only_match (t : Str) : Bool :=
  match afterHeader (S "Headline:") t with
  | some rest => rest.all (fun c => c != '\n') && 3 ≤ rest.length && rest.length ≤ 200
  | none => false

/-- `_validate_keywords5_line` from `app/agent.py`. -/
def validate_keywords5_line (text : Str) : Bool :=
  let t := trimL text
  if !(S "keywords:").isPrefixOf (lowerL t) then false
  else
    let rest := trimL (afterColon t)
    if rest.isEmpty then false
    else
      let parts := ((splitOnChar ',' rest).map trimL).filter (fun p => !p.isEmpty)
      if parts.length ≠ 5 then false
      else if parts.any (fun p => p.length < 2) then false
      else true

/-- `_is_valid_format` from `app/agent.py`. -/
def is_valid_format (text : Str) (mode : Str) : Bool :=
  let t := trimL text
  if t.isEmpty then false
  else if mode = MODE_HEADLINE then headline_only_match t
  else if mode = MODE_KEYWORDS5 then validate_keywords5_line t
  else full_format_match t

/-! ## `app/agent.py`: stopwords, hints, limits -/

/-- `_STOPWORDS` from `app/agent.py`. -/
def STOPWORDS : List Str :=
  [S "a", S "an", S "the", S "and", S "or", S "for", S "to", S "of", S "in",
   S "on", S "with", S "without", S "by", S "include", S "includes",
   S "including", S "style", S "amazon", S "ad", S "write", S "bullet",
   S "bullets", S "cta", S "benefits", S "your", S "now", S "next", S "new",
   S "please", S "make", S "create", S "this", S "that", S "these", S "those",
   S "from", S "into", S "over", S "under", S "best", S "top", S "high",
   S "quality", S "premium", S "great"]

/-- `_INTENT_HINTS` from `app/agent.py`. -/
def INTENT_HINTS : List Str :=
  [S "write", S "generate", S "create", S "headline", S "keywords", S "ad",
   S "listing", S "product"]

/-- `_PRODUCT_HINTS` from `app/agent.py`. -/
def PRODUCT_HINTS : List Str :=
  [S "bottle", S "shoe", S "watch", S "backpack", S "headphones", S "laptop",
   S "charger", S "camera", S "mug", S "cup", S "speaker", S "mouse",
   S "keyboard", S "skincare", S "perfume", S "dress"]

def MIN_PROMPT_CHARS_FOR_AGENT : Nat := 12
def MIN_TOKENS_FOR_AGENT : Nat := 3

/-! ## `app/agent.py`: query rewriting -/

/-- The line scan of `_rewrite_query`: the value of the last `Category:` line
and the last `Product:` line (each `line.split(":", 1)[1].strip()`). -/
def catProdScan : List Str → Str × Str → Str × Str
  | [], acc => acc
  | l :: ls, acc =>
    if (S "Category:").isPrefixOf l then catProdScan ls (trimL (afterColon l), acc.2)
    else if (S "Product:").isPrefixOf l then catProdScan ls (acc.1, trimL (afterColon l))
    else catProdScan ls acc

/-- `_rewrite_query` from `app/agent.py`. -/
def rewrite_query (prompt : Str) : Str :=
  let cp := catProdScan (pySplitlines prompt) ([], [])
  let text :=
    if !cp.1.isEmpty && !cp.2.isEmpty then
      lowerL (S "category " ++ cp.1 ++ S " " ++ cp.2)
    else lowerL prompt
  let toks := (tokensOf text).filter (fun t => 3 ≤ t.length && !STOPWORDS.contains t)
  let q := trimL (joinSep (S " ") (toks.take 12))
  if q.isEmpty then prompt else q

example : rewrite_query (S "Category: Shoes\nProduct: Boots") = S "category shoes boots" := by decide
example : detect_mode (S "headline only please. Task: write a full ad") = MODE_HEADLINE := by decide
example : validate_keywords5_line (S "Keywords: aa, bb, cc, dd, ee\nextra junk") = true := by decide
example : validate_keywords5_line (S "Keywords: a, bb, ccc, dddd, eeeee") = false := by decide
example : is_valid_format (S "Headline: Great red mug") MODE_HEADLINE = true := by decide
example : full_format_match (S "Headline: m\nBullets:\n- a\n- b\n- c\n- d\n- e\nShort description: x\nKeywords: y\nPublishing tips: z") = true := by decide
example : full_format_match (S "Headline: m\nBullets:\n- a\n- b\n- c\n- d\nShort description: x\nKeywords: y\nPublishing tips: z") = false := by decide

/-! ## `app/agent.py`: context condensation (`_condense_ctx`) -/

/-- The candidate lines of `_condense_ctx`: stripped lines of the context
block that start with `"- "`, with the marker removed and re-stripped,
empty results dropped. -/
def candidateLines (ctx : Str) : List Str :=
  (pySplitlines ctx).filterMap (fun ln =>
    let l := trimL ln
    if (S "- ").isPrefixOf l then
      let s := trimL (l.drop 2)
      if s.isEmpty then none else some s
    else none)

/-- The significant-token set of the prompt used by `_condense_ctx`:
distinct alphanumeric tokens of length at least 3 that are not stopwords. -/
def queryTokens (prompt : Str) : List Str :=
  (dedupAux [] (tokensOf (lowerL prompt))).filter
    (fun t => 3 ≤ t.length && !STOPWORDS.contains t)

/-- The relevance score of a candidate line: how many significant query
tokens occur as substrings of the lowered line. -/
def scoreLine (prompt s : Str) : Nat :=
  ((queryTokens prompt).filter (fun tok => strIn tok (lowerL s))).length

/-- Stable insertion for a descending sort by `f` (an element is placed
before the first earlier element of not-larger key, so equal-key elements
keep their input order — the behaviour of Python's stable
`sorted(key=f, reverse=True)`). -/
def insertDesc (f : α → Nat) (x : α) : List α → List α
  | [] => [x]
  | y :: ys => if f y ≤ f x then x :: y :: ys else y :: insertDesc f x ys

/-- Stable descending sort by `f` (Python `sorted(l, key=f, reverse=True)`:
the unique stable descending reordering). -/
def isortDesc (f : α → Nat) : List α → List α
  | [] => []
  | x :: xs => insertDesc f x (isortDesc f xs)

/-- The selection loop of `_condense_ctx`: walk the sorted candidates,
skip case-insensitive duplicates, stop once `maxLines` lines are kept. -/
def pickLoop (maxLines : Nat) (seen : List Str) (acc : List Str) : List Str → List Str
  | [] => acc
  | s :: rest =>
    let k := trimL (lowerL s)
    if k.isEmpty || seen.contains k then pickLoop maxLines seen acc rest
    else if maxLines ≤ acc.length + 1 then acc ++ [s]
    else pickLoop maxLines (k :: seen) (acc ++ [s]) rest

/-- The ordered lines surviving ranking, deduplication and the cap in
`_condense_ctx`. -/
def rankedLines (prompt ctx : Str) (maxLines : Nat) : List Str :=
  pickLoop maxLines [] [] (isortDesc (scoreLine prompt) (candidateLines ctx))

/-- `_condense_ctx` from `app/agent.py`. -/
def condense_ctx (prompt ctx : Str) (maxLines : Nat) : Str :=
  if ctx.isEmpty then []
  else if (candidateLines ctx).isEmpty then ctx.take 1200
  else joinSep (S "\n") ((rankedLines prompt ctx maxLines).map (fun s => S "- " ++ s))

/-! ## `app/agent.py`: allowed-term extraction (`_extract_allowed_terms`) -/

/-- Character class of `_extract_allowed_terms`' token regex after
lower-casing: `[a-z-]`. -/
def isAlphaHyphen (c : Char) : Bool := ('a' ≤ c && c ≤ 'z') || c = '-'

/-- Python `re.findall(r"[a-zA-Z][a-zA-Z\-]{2,}", s)` on lowered text:
maximal `[a-z-]` runs, with leading hyphens skipped (a match must start
with a letter) and runs shorter than 3 dropped. -/
def alphaTokens (s : Str) : List Str :=
  ((runsAux isAlphaHyphen [] s).map (fun r => r.dropWhile (fun c => c = '-'))).filter
    (fun t => 3 ≤ t.length)

/-- `_extract_allowed_terms` from `app/agent.py`.  `Counter.most_common(80)`
orders by descending count with ties in first-occurrence order, which is the
stable descending sort of the distinct tokens by count. -/
def extract_allowed_terms (condensed : Str) (maxTerms : Nat) : List Str :=
  if condensed.isEmpty then []
  else
    let toks := (alphaTokens (lowerL condensed)).filter (fun t => !STOPWORDS.contains t)
    let common := ((isortDesc (fun t => toks.count t) (dedupAux [] toks)).take 80).filter
      (fun t => 2 ≤ toks.count t)
    common.take maxTerms

/-! ## `app/agent.py`: clarification gate -/

/-- `_should_clarify` from `app/agent.py`. -/
def should_clarify (prompt : Str) : Bool × Str :=
  let p := trimL prompt
  if p.isEmpty then (true, S "empty")
  else if p.length < MIN_PROMPT_CHARS_FOR_AGENT then (true, S "too_short")
  else
    let pl := lowerL p
    let meaningful := (tokensOf pl).filter (fun t => 2 ≤ t.length)
    let hasIntent := INTENT_HINTS.any (fun h => strIn h pl)
    let hasProduct := PRODUCT_HINTS.any (fun h => strIn h pl) || strIn (S "product:") pl
    if hasIntent && !hasProduct then (true, S "missing_product")
    else if meaningful.length < MIN_TOKENS_FOR_AGENT then
      if hasProduct then (false, []) else (true, S "too_few_tokens")
    else if !hasIntent && !hasProduct then (true, S "no_intent_or_product")
    else (false, [])

/-- `_clarification_response` from `app/agent.py`. -/
def clarification_response (reason : Str) : Str :=
  if reason = S "missing_product" then
    S "Sure — what product should I write the ad copy for?\n\nTry:\nProduct: ...\nCategory: ...\nConstraints: ... (optional)\nTask: Full ad / headline only / 5 keywords\n"
  else
    S "Hi! Please describe the product and what you want:\n\nProduct: ...\nCategory: ...\nConstraints: ... (optional)\nTask: Full ad / headline only / 5 keywords\n"

/-! ## `app/agent.py`: the pipeline `run_agent`

The two network collaborators are abstracted as oracles: the retriever's
context block is a parameter, and the generator's outputs are a list
consumed in call order (first element: the main draft; second: the repair
draft) — this quantifies over every generator behaviour.  The prompt pair
built by `_build_messages` / `_repair_format` only feeds those calls, so it
does not appear in the control flow.  The second component of the result
counts the generation calls issued. -/

/-- One `ExecutionStep` of the trace, carrying the module identity and the
recorded fields the development reasons about. -/
inductive Step
  | inputGuard (empty tooLong : Bool) (length : Nat) (mode : Str)
  | intentGuard (shouldClarify : Bool) (reason : Str) (fromWizard : Bool) (mode : Str)
  | retriever (query : Str)
  | adCopyWriter
  | formatRepair (mode : Str)
  | finalComposer (repaired : Bool) (formatValid : Bool)
deriving DecidableEq

/-- The module name recorded in a trace step. -/
def Step.moduleName : Step → Str
  | .inputGuard .. => S "InputGuard"
  | .intentGuard .. => S "IntentGuard"
  | .retriever .. => S "AmazonInspirationRetriever"
  | .adCopyWriter => S "AdCopyWriter"
  | .formatRepair .. => S "FormatRepair"
  | .finalComposer .. => S "FinalResponseComposer"

/-- The `{status, error, response, steps}` result of `run_agent`. -/
structure AgentResult where
  status : Str
  error : Option Str
  response : Option Str
  steps : List Step
deriving DecidableEq

/-- The wizard marker test of `run_agent`. -/
def fromWizardB (prompt : Str) : Bool :=
  strIn (S "RAG Category Filter:") prompt || strIn (S "Category:") prompt
    || strIn (S "Task:") prompt

/-- `run_agent` from `app/agent.py` (oracles as described above; the
returned `Nat` counts generator calls). -/
def run_agent (enableRepair : Bool) (maxPromptChars : Nat)
    (retrievedCtx : Str) (gens : List Str) (user_prompt : Str) :
    AgentResult × Nat :=
  let prompt := trimL user_prompt
  let mode := detect_mode prompt
  let guardEmpty := prompt.isEmpty
  let guardTooLong := decide (maxPromptChars < prompt.length)
  let steps0 := [Step.inputGuard guardEmpty guardTooLong prompt.length mode]
  if guardEmpty then
    (⟨S "error", some (S "Empty prompt"), none, steps0⟩, 0)
  else if guardTooLong then
    (⟨S "error", some (S "Prompt too long"), none, steps0⟩, 0)
  else
    let fromWizard := fromWizardB prompt
    let cr := if fromWizard then (false, ([] : Str)) else should_clarify prompt
    let steps1 := steps0 ++ [Step.intentGuard cr.1 cr.2 fromWizard mode]
    if cr.1 then
      (⟨S "ok", none, some (clarification_response cr.2), steps1⟩, 0)
    else
      let searchQuery := rewrite_query prompt
      let steps2 := steps1 ++ [Step.retriever searchQuery]
      let _condensed := condense_ctx prompt retrievedCtx 10
      let _allowed := extract_allowed_terms _condensed 12
      let llmText := gens.headD []
      let steps3 := steps2 ++ [Step.adCopyWriter]
      let draft := trimL llmText
      if enableRepair && !is_valid_format draft mode then
        let fixed := (gens.drop 1).headD []
        let steps4 := steps3 ++ [Step.formatRepair mode]
        if is_valid_format fixed mode then
          (⟨S "ok", none, some (trimL fixed),
            steps4 ++ [Step.finalComposer true (is_valid_format (trimL fixed) mode)]⟩, 2)
        else
          (⟨S "ok", none, some draft,
            steps4 ++ [Step.finalComposer false (is_valid_format draft mode)]⟩, 2)
      else
        (⟨S "ok", none, some draft,
          steps3 ++ [Step.finalComposer false (is_valid_format draft mode)]⟩, 1)

/-! ## `app/conversation_manager.py`: data -/

/-- One entry of `MENU_ACTIONS` / an option list item. -/
structure MenuItem where
  id : Str
  label : Str
  desc : Option Str := none
deriving DecidableEq

/-- `MENU_ACTIONS` from `app/conversation_manager.py`. -/
def MENU_ACTIONS : List MenuItem :=
  [⟨S "full_ad", S "✍️  Create Full Ad",
    some (S "Headline + 5 bullets + description + keywords + publishing tips")⟩,
   ⟨S "headline_only", S "🏷️  Create Headline Only",
    some (S "One high-converting headline line")⟩,
   ⟨S "keywords_5", S "🔑  Get 5 Must-Use Keywords",
    some (S "Exactly 5 keywords/phrases to include in the headline")⟩]

/-- One subcategory entry of `CATEGORY_TREE`. -/
structure SubCat where
  id : Str
  label : Str
  pineId : Str
deriving DecidableEq

/-- One top-level entry of `CATEGORY_TREE` (`pineId` is the `pinecone_id`
field). -/
structure Cat where
  id : Str
  label : Str
  pineId : Str
  subcategories : List SubCat
deriving DecidableEq

/-- `CATEGORY_TREE` from `app/conversation_manager.py`. -/
def CATEGORY_TREE : List Cat :=
  [⟨S "electronics", S "💻  Electronics & Computers", S "electronics",
    [⟨S "electronics", S "Electronics (General)", S "electronics"⟩,
     ⟨S "computers", S "Computers", S "computers"⟩]⟩,
   ⟨S "home_kitchen", S "🏠  Home & Kitchen", S "home-kitchen", []⟩,
   ⟨S "sports_outdoors", S "⚽  Sports & Outdoors", S "sports-outdoors", []⟩,
   ⟨S "beauty_health", S "💄  Beauty & Health", S "health-household",
    [⟨S "beauty", S "Beauty", S "beauty"⟩,
     ⟨S "health-household", S "Health & Household", S "health-household"⟩]⟩,
   ⟨S "automotive", S "🚗  Automotive", S "automotive", []⟩,
   ⟨S "baby", S "🍼  Baby", S "baby", []⟩,
   ⟨S "pets", S "🐾  Pets", S "pets", []⟩,
   ⟨S "luggage", S "🧳  Luggage & Travel", S "luggage", []⟩,
   ⟨S "arts_crafts", S "🎨  Arts & Crafts", S "arts_crafts", []⟩,
   ⟨S "industrial", S "🏭  Industrial & Scientific", S "industrial-scientific", []⟩]

/-- `BACK_COMMANDS` from `app/conversation_manager.py`. -/
def BACK_COMMANDS : List Str :=
  [S "__back", S "back", S "go back", S "prev", S "previous", S "return",
   S "חזור", S "אחורה"]

/-- The conversation state dictionary.  `none` models a missing key or a
Python `None` value. -/
structure ConvState where
  step : Option Str
  action : Option Str
  category : Option Str
  subcategory : Option Str
  product : Option Str
  constraints : Option Str
deriving DecidableEq

/-- `_empty_state` from `app/conversation_manager.py`. -/
def empty_state : ConvState :=
  ⟨some (S "GREETING"), none, none, none, none, none⟩

/-- The UI payload returned beside the next state. -/
structure Payload where
  message : Str
  uiType : Str
  options : Option (List MenuItem)
  ready : Bool
  agentPrompt : Option Str
deriving DecidableEq

/-! ## `app/conversation_manager.py`: helpers -/

/-- `_top_level_options`. -/
def top_level_options : List MenuItem :=
  CATEGORY_TREE.map (fun c => ⟨c.id, c.label, none⟩)

/-- `_subcategory_options`. -/
def subcategory_options (catId : Str) : List MenuItem :=
  match CATEGORY_TREE.find? (fun c => c.id = catId) with
  | some c => c.subcategories.map (fun s => ⟨s.id, s.label, none⟩)
  | none => []

/-- `_has_subcategories`. -/
def has_subcategories (catId : Str) : Bool :=
  match CATEGORY_TREE.find? (fun c => c.id = catId) with
  | some c => decide (1 < c.subcategories.length)
  | none => false

/-- `_pinecone_id` (`sub_id` falsy — absent or empty — skips the
subcategory search). -/
def pinecone_id (catId : Str) (subId : Option Str) : Str :=
  let bySub :=
    match subId with
    | some sid =>
      if sid.isEmpty then none
      else CATEGORY_TREE.findSome?
        (fun (c : Cat) =>
          (c.subcategories.find? (fun (s : SubCat) => s.id = sid)).map
            (fun (s : SubCat) => s.pineId))
    | none => none
  match bySub with
  | some p => p
  | none =>
    match CATEGORY_TREE.find? (fun c => c.id = catId) with
    | some c => c.pineId
    | none => catId

/-- The remainder after the first `"  "` (two spaces), when present. -/
def afterTwoSpaces : Str → Option Str
  | [] => none
  | [_] => none
  | a :: b :: rest =>
    if a = ' ' && b = ' ' then some rest else afterTwoSpaces (b :: rest)

/-- The segment before the next `"  "` (two spaces). -/
def upToTwoSpaces : Str → Str
  | [] => []
  | [c] => [c]
  | a :: b :: rest =>
    if a = ' ' && b = ' ' then [] else a :: upToTwoSpaces (b :: rest)

/-- Python `label.split("  ")[1]` (callers guarantee the separator is
present; a separator-free label yields `[]`). -/
def labelPart (label : Str) : Str :=
  upToTwoSpaces ((afterTwoSpaces label).getD [])

/-- `_category_label`. -/
def category_label (catId : Str) (subId : Option Str) : Str :=
  match CATEGORY_TREE.find? (fun c => c.id = catId) with
  | some c =>
    match subId with
    | some sid =>
      if sid.isEmpty then
        if (afterTwoSpaces c.label).isSome then labelPart c.label else c.label
      else
        match c.subcategories.find? (fun s => s.id = sid) with
        | some s => labelPart c.label ++ S " > " ++ s.label
        | none => if (afterTwoSpaces c.label).isSome then labelPart c.label else c.label
    | none => if (afterTwoSpaces c.label).isSome then labelPart c.label else c.label
  | none => catId

/-! ## `app/conversation_manager.py`: payloads and transitions -/

/-- `_payload_for_step`. -/
def payload_for_step (state : ConvState) : Payload :=
  let step := state.step.getD (S "GREETING")
  if step = S "MENU" then
    ⟨S "What would you like to do today?", S "menu", some MENU_ACTIONS, false, none⟩
  else if step = S "COLLECT_CATEGORY" then
    ⟨S "Select the **main category** of your product:", S "categories",
     some top_level_options, false, none⟩
  else if step = S "COLLECT_SUBCATEGORY" then
    let catId := state.category.getD []
    let catLabel := category_label catId none
    ⟨S "Great — **" ++ catLabel ++ S "**! Now pick a sub-category:", S "categories",
     some (subcategory_options catId), false, none⟩
  else if step = S "COLLECT_PRODUCT" then
    let catLabel := category_label (state.category.getD []) state.subcategory
    ⟨S "Perfect — **" ++ catLabel ++ S "**!\n\nDescribe your product:\n• Name / model\n• Key features (material, size, color, specs)\n• What makes it unique",
     S "input", none, false, none⟩
  else if step = S "COLLECT_CONSTRAINTS" then
    ⟨S "Any constraints or preferences?\n\nExamples:\n• Target audience\n• Tone\n• Language (default: English)\n• Things to avoid (e.g. no emojis)\n\nOr type **skip**.",
     S "input", none, false, none⟩
  else
    ⟨S "Something went wrong. Let's start over!", S "menu", some MENU_ACTIONS, false, none⟩

/-- `_go_back`. -/
def go_back (state : ConvState) : ConvState :=
  let step := state.step.getD (S "GREETING")
  if step = S "GREETING" || step = S "MENU" then
    { empty_state with step := some (S "MENU") }
  else if step = S "COLLECT_CATEGORY" then
    { empty_state with step := some (S "MENU") }
  else if step = S "COLLECT_SUBCATEGORY" then
    { state with step := some (S "COLLECT_CATEGORY"), subcategory := none }
  else if step = S "COLLECT_PRODUCT" then
    let catOk := match state.category with
      | some cid => !cid.isEmpty && has_subcategories cid
      | none => false
    if catOk then
      { state with step := some (S "COLLECT_SUBCATEGORY"), product := none, constraints := none }
    else
      { state with step := some (S "COLLECT_CATEGORY"), category := none,
                   subcategory := none, product := none, constraints := none }
  else if step = S "COLLECT_CONSTRAINTS" then
    { state with step := some (S "COLLECT_PRODUCT"), constraints := none }
  else if step = S "GENERATE" then
    { state with step := some (S "COLLECT_CONSTRAINTS") }
  else
    { empty_state with step := some (S "MENU") }

/-- The action instruction map of the `COLLECT_CONSTRAINTS` branch. -/
def action_instruction (action : Option Str) : Str :=
  if action = some (S "full_ad") then
    S "Write a full high-converting ad: headline + 5 bullets + short description + keywords + publishing tips."
  else if action = some (S "headline_only") then
    S "Write ONLY a high-converting headline for this product. Output only 'Headline: ...'."
  else if action = some (S "keywords_5") then
    S "Generate ONLY a list of 5 keywords/phrases that MUST be included in the headline. Output only 'Keywords: k1, k2, k3, k4, k5'."
  else
    S "Write a full high-converting ad."

/-- `process_message` from `app/conversation_manager.py`.  A `none` first
argument models a Python `None` input; a `none` state or a state whose
`step` is missing or empty is replaced by the fresh empty state. -/
def process_message (user_input : Option Str) (state0 : Option ConvState) :
    ConvState × Payload :=
  let state :=
    match state0 with
    | none => empty_state
    | some st => match st.step with
      | none => empty_state
      | some s => if s.isEmpty then empty_state else st
  let step := state.step.getD (S "GREETING")
  let text := trimL (user_input.getD [])
  if !text.isEmpty && BACK_COMMANDS.contains (lowerL text) then
    let ns := go_back state
    (ns, payload_for_step ns)
  else if step = S "GREETING" then
    ({ state with step := some (S "MENU") },
     ⟨S "👋 Welcome to **Ad-Wise**!\n\nI help you craft high-converting ad copy grounded in real product listing data.\n\nChoose an option:",
      S "menu", some MENU_ACTIONS, false, none⟩)
  else if step = S "MENU" then
    if !(MENU_ACTIONS.map (·.id)).contains text then
      (state, ⟨S "Please choose one of the options below:", S "menu",
               some MENU_ACTIONS, false, none⟩)
    else
      let ns := { state with step := some (S "COLLECT_CATEGORY"), action := some text }
      (ns, payload_for_step ns)
  else if step = S "COLLECT_CATEGORY" then
    if !(CATEGORY_TREE.map (·.id)).contains text then
      (state, ⟨S "Please select a category from the list:", S "categories",
               some top_level_options, false, none⟩)
    else
      if has_subcategories text then
        let ns := { state with step := some (S "COLLECT_SUBCATEGORY"), category := some text }
        (ns, payload_for_step ns)
      else
        let ns := { state with step := some (S "COLLECT_PRODUCT"), category := some text,
                               subcategory := none }
        (ns, payload_for_step ns)
  else if step = S "COLLECT_SUBCATEGORY" then
    let catId := state.category.getD []
    if !((subcategory_options catId).map (·.id)).contains text then
      (state, ⟨S "Please select a sub-category:", S "categories",
               some (subcategory_options catId), false, none⟩)
    else
      let ns := { state with step := some (S "COLLECT_PRODUCT"), subcategory := some text }
      (ns, payload_for_step ns)
  else if step = S "COLLECT_PRODUCT" then
    if text.length < 5 then
      (state, ⟨S "Please describe your product in a bit more detail:", S "input",
               none, false, none⟩)
    else
      let ns := { state with step := some (S "COLLECT_CONSTRAINTS"), product := some text }
      (ns, payload_for_step ns)
  else if step = S "COLLECT_CONSTRAINTS" then
    let constraints := if lowerL text = S "skip" then [] else text
    let ns := { state with step := some (S "GENERATE"), constraints := some constraints }
    let catId := ns.category.getD []
    let product := ns.product.getD []
    let consStr := if constraints.isEmpty then S "None" else constraints
    let catLabel := category_label catId ns.subcategory
    let ragCategory := pinecone_id catId ns.subcategory
    let agentPrompt :=
      S "Product: " ++ product ++ S "\nCategory: " ++ catLabel
        ++ S "\nRAG Category Filter: " ++ ragCategory
        ++ S "\nConstraints: " ++ consStr
        ++ S "\nPlatform: E-commerce\nTask: " ++ action_instruction ns.action
    (ns, ⟨S "✅ Got it! Generating output for _" ++ catLabel ++ S "_...",
          S "result", none, true, some agentPrompt⟩)
  else if step = S "GENERATE" then
    let ns := { empty_state with step := some (S "MENU") }
    (ns, payload_for_step ns)
  else
    (empty_state, payload_for_step empty_state)

example :
    (process_message (some (S "back"))
      (some ⟨some (S "COLLECT_SUBCATEGORY"), some (S "full_ad"),
             some (S "electronics"), some (S "computers"), none, none⟩)).1 =
      ⟨some (S "COLLECT_CATEGORY"), some (S "full_ad"), some (S "electronics"),
       none, none, none⟩ := by decide

example :
    (process_message (some (S "hello")) none).1 =
      ⟨some (S "MENU"), none, none, none, none, none⟩ := by decide

example :
    (process_message (some (S "skip"))
      (some ⟨some (S "COLLECT_CONSTRAINTS"), some (S "full_ad"),
             some (S "home_kitchen"), none, some (S "red ceramic mug"), none⟩)).2.ready
      = true := by decide

/-! # Claims -/

/-- C2 counterexample: in `_detect_mode` the phrase checks run over the
*whole* lowered text, not only over the phrase following the `Task:`
marker.  In `"headline only. Task: write a full ad"` the phrase after the
marker (`" write a full ad"`) contains none of the trigger phrases, so the
claim predicts Full, yet the detector returns HeadlineOnly because
`"headline only"` occurs before the marker. -/
theorem detect_mode_before_marker_cex :
    strIn (S "task:") (lowerL (S "headline only. Task: write a full ad")) = true ∧
    strIn (S "headline only") (lowerL (S " write a full ad")) = false ∧
    strIn (S "write only") (lowerL (S " write a full ad")) = false ∧
    strIn (S "5 keywords") (lowerL (S " write a full ad")) = false ∧
    strIn (S "five keywords") (lowerL (S " write a full ad")) = false ∧
    strIn (S "keywords that must be included") (lowerL (S " write a full ad")) = false ∧
    detect_mode (S "headline only. Task: write a full ad") = MODE_HEADLINE ∧
    MODE_HEADLINE ≠ MODE_FULL := by
  decide

/-- C2 (amended): for every request whose lowered text contains `"task:"`,
the detector classifies by the trigger phrases of the *entire* lowered
text: HeadlineOnly when it contains ("write only" and "headline") or
"headline only"; Keywords5 when it contains "5 keywords", "five keywords"
or "keywords that must be included"; Full otherwise.  Occurrences before
the marker count just like occurrences after it. -/
theorem detect_mode_whole_text (p : Str)
    (h : strIn (S "task:") (lowerL p) = true) :
    detect_mode p =
      (if (strIn (S "write only") (lowerL p) && strIn (S "headline") (lowerL p))
          || strIn (S "headline only") (lowerL p) then MODE_HEADLINE
       else if strIn (S "5 keywords") (lowerL p) || strIn (S "five keywords") (lowerL p)
          || strIn (S "keywords that must be included") (lowerL p) then MODE_KEYWORDS5
       else MODE_FULL) := by
  simp only [detect_mode, h, if_true]

/-- Witness for `detect_mode_whole_text` at a concrete input. -/
theorem detect_mode_whole_text_wit :
    detect_mode (S "5 keywords please. Task: anything") =
      (if (strIn (S "write only") (lowerL (S "5 keywords please. Task: anything"))
            && strIn (S "headline") (lowerL (S "5 keywords please. Task: anything")))
          || strIn (S "headline only") (lowerL (S "5 keywords please. Task: anything")) then
        MODE_HEADLINE
       else if strIn (S "5 keywords") (lowerL (S "5 keywords please. Task: anything"))
          || strIn (S "five keywords") (lowerL (S "5 keywords please. Task: anything"))
          || strIn (S "keywords that must be included")
              (lowerL (S "5 keywords please. Task: anything")) then MODE_KEYWORDS5
       else MODE_FULL) :=
  detect_mode_whole_text (S "5 keywords please. Task: anything") (by decide)

/-- C4 counterexample: the Keywords5 validator accepts a trimmed text of
two lines — the last comma-separated item may contain a newline — so
"a trimmed text containing more than one line is rejected" is false. -/
theorem keywords5_multiline_cex :
    (splitOnChar '\n' (trimL (S "Keywords: aa, bb, cc, dd, ee\nextra junk"))).length = 2 ∧
    is_valid_format (S "Keywords: aa, bb, cc, dd, ee\nextra junk") MODE_KEYWORDS5 = true := by
  decide

/-- The Keywords5 acceptance condition as amended claim C4 states it:
the trimmed text starts (case-insensitively) with `Keywords:` and the text
after the first colon splits on commas into exactly 5 non-empty trimmed
items, each at least 2 characters — with no single-line requirement. -/
def keywords5Spec (text : Str) : Prop :=
  (S "keywords:").isPrefixOf (lowerL (trimL text)) = true ∧
  (((splitOnChar ',' (trimL (afterColon (trimL text)))).map trimL).filter
      (fun p => !p.isEmpty)).length = 5 ∧
  ∀ p ∈ ((splitOnChar ',' (trimL (afterColon (trimL text)))).map trimL).filter
      (fun p => !p.isEmpty), 2 ≤ p.length

/-- C4 (amended): the Keywords5 validator accepts exactly the texts whose
trimmed form starts (case-insensitively) with `Keywords:` followed by
exactly 5 comma-separated non-empty items, each at least 2 characters after
trimming; newlines inside the items are not rejected. -/
theorem validate_keywords5_iff (text : Str) :
    validate_keywords5_line text = true ↔ keywords5Spec text := by
  unfold validate_keywords5_line keywords5Spec
  cases h1 : (S "keywords:").isPrefixOf (lowerL (trimL text)) with
  | false => simp [h1]
  | true =>
    simp only [h1, Bool.not_true, if_false, Bool.false_eq_true, false_implies, true_and]
    cases h2 : (trimL (afterColon (trimL text))).isEmpty with
    | true =>
      rw [List.isEmpty_iff] at h2
      simp [h2, if_true]
      decide
    | false =>
      simp only [h2, Bool.false_eq_true, if_false]
      by_cases h3 :
          (((splitOnChar ',' (trimL (afterColon (trimL text)))).map trimL).filter
            (fun p => !p.isEmpty)).length = 5
      · simp only [h3, ne_eq, not_true_eq_false, if_false, if_true, true_and]
        cases h4 : (((splitOnChar ',' (trimL (afterColon (trimL text)))).map trimL).filter
            (fun p => !p.isEmpty)).any (fun p => p.length < 2) with
        | true =>
          simp only [if_true, Bool.false_eq_true, false_iff]
          rw [List.any_eq_true] at h4
          obtain ⟨p, hp, hlt⟩ := h4
          intro hall
          have := hall p hp
          simp at hlt
          omega
        | false =>
          simp only [Bool.false_eq_true, if_false, true_iff]
          rw [List.any_eq_false] at h4
          intro p hp
          have := h4 p hp
          simp at this
          omega
      · simp [h3]

/-- C5 counterexample: the spec's first example
`"Keywords: a, bb, ccc, dddd, eeeee"` is *invalid* for Keywords5, because
the item `"a"` is shorter than the validator's 2-character minimum. -/
theorem spec_examples_cex :
    is_valid_format (S "Keywords: a, bb, ccc, dddd, eeeee") MODE_KEYWORDS5 = false := by
  decide

/-- C5 (amended): `"Keywords: a, bb, ccc, dddd, eeeee"` is invalid for
Keywords5 (item `"a"` is below the 2-character minimum) while the variant
`"Keywords: aa, bb, ccc, dddd, eeeee"` is valid; `"Keywords: a, b"` is
invalid; a Full-mode text with only 4 bullet lines is invalid while the
5-bullet version is valid. -/
theorem spec_examples_amended :
    is_valid_format (S "Keywords: a, bb, ccc, dddd, eeeee") MODE_KEYWORDS5 = false ∧
    is_valid_format (S "Keywords: aa, bb, ccc, dddd, eeeee") MODE_KEYWORDS5 = true ∧
    is_valid_format (S "Keywords: a, b") MODE_KEYWORDS5 = false ∧
    is_valid_format
      (S "Headline: Red mug\nBullets:\n- one\n- two\n- three\n- four\nShort description: nice\nKeywords: mug, red\nPublishing tips: post it")
      MODE_FULL = false ∧
    is_valid_format
      (S "Headline: Red mug\nBullets:\n- one\n- two\n- three\n- four\n- five\nShort description: nice\nKeywords: mug, red\nPublishing tips: post it")
      MODE_FULL = true := by
  decide

/-- C8: for a free-form text at least 12 characters long after trimming,
the clarification gate applies its rules in order: intent without product
signal clarifies with `missing_product`; otherwise fewer than 3 meaningful
tokens clarifies with `too_few_tokens` unless a product signal is present
(then it proceeds); otherwise neither signal clarifies with
`no_intent_or_product`; otherwise it proceeds. -/
theorem should_clarify_cascade (prompt : Str)
    (hlen : 12 ≤ (trimL prompt).length) :
    should_clarify prompt =
      (let pl := lowerL (trimL prompt)
       let hasIntent := INTENT_HINTS.any (fun h => strIn h pl)
       let hasProduct := PRODUCT_HINTS.any (fun h => strIn h pl) || strIn (S "product:") pl
       let meaningful := (tokensOf pl).filter (fun t => 2 ≤ t.length)
       if hasIntent && !hasProduct then (true, S "missing_product")
       else if meaningful.length < 3 then
         if hasProduct then (false, ([] : Str)) else (true, S "too_few_tokens")
       else if !hasIntent && !hasProduct then (true, S "no_intent_or_product")
       else (false, ([] : Str))) := by
  have hne : (trimL prompt).isEmpty = false := by
    cases h : trimL prompt with
    | nil => rw [h] at hlen; exact absurd hlen (by decide)
    | cons c cs => rfl
  have hshort : ((trimL prompt).length < MIN_PROMPT_CHARS_FOR_AGENT) ↔ False := by
    simp only [MIN_PROMPT_CHARS_FOR_AGENT, iff_false, not_lt]
    exact hlen
  simp only [should_clarify, hne, Bool.false_eq_true, if_false, hshort,
    MIN_TOKENS_FOR_AGENT]

/-- Witness for `should_clarify_cascade` at a concrete input: `"write an ad
for my brand"` has intent hints but no product signal, so it clarifies with
reason `missing_product`. -/
theorem should_clarify_cascade_wit :
    should_clarify (S "write an ad for my brand") = (true, S "missing_product") :=
  (should_clarify_cascade (S "write an ad for my brand") (by decide)).trans (by decide)

/-- C9: a back command from a `COLLECT_SUBCATEGORY` state moves to
`COLLECT_CATEGORY` clearing only `subcategory` (action, category, product
and constraints unchanged), and a back command from a `MENU` state yields
the fresh empty state re-pointed at `MENU`. -/
theorem conv_back_navigation :
    (∀ (st : ConvState) (input : Str),
        st.step = some (S "COLLECT_SUBCATEGORY") →
        BACK_COMMANDS.contains (lowerL (trimL input)) = true →
        (process_message (some input) (some st)).1 =
          { st with step := some (S "COLLECT_CATEGORY"), subcategory := none }) ∧
    (∀ (st : ConvState) (input : Str),
        st.step = some (S "MENU") →
        BACK_COMMANDS.contains (lowerL (trimL input)) = true →
        (process_message (some input) (some st)).1 =
          { empty_state with step := some (S "MENU") }) := by
  constructor <;>
  · intro st input hstep hback
    have hne : (trimL input).isEmpty = false := by
      cases h : trimL input with
      | nil =>
        rw [h] at hback
        exact absurd hback (by decide)
      | cons c cs => rfl
    have hmem : lowerL (trimL input) ∈ BACK_COMMANDS := by simpa using hback
    simp +decide [process_message, go_back, hstep, hmem, hne]

/-- Witness for `conv_back_navigation` at concrete inputs. -/
theorem conv_back_navigation_wit :
    (process_message (some (S "Go Back"))
        (some ⟨some (S "COLLECT_SUBCATEGORY"), some (S "keywords_5"),
               some (S "beauty_health"), some (S "beauty"), none, none⟩)).1 =
      { (⟨some (S "COLLECT_SUBCATEGORY"), some (S "keywords_5"),
          some (S "beauty_health"), some (S "beauty"), none, none⟩ : ConvState) with
        step := some (S "COLLECT_CATEGORY"), subcategory := none } ∧
    (process_message (some (S "back"))
        (some ⟨some (S "MENU"), none, none, none, none, none⟩)).1 =
      { empty_state with step := some (S "MENU") } :=
  ⟨conv_back_navigation.1
      ⟨some (S "COLLECT_SUBCATEGORY"), some (S "keywords_5"),
       some (S "beauty_health"), some (S "beauty"), none, none⟩
      (S "Go Back") (by decide) (by decide),
   conv_back_navigation.2
      ⟨some (S "MENU"), none, none, none, none, none⟩
      (S "back") (by decide) (by decide)⟩

/-- C10: with a missing state, or a state whose `step` key is absent, the
machine treats the turn as a fresh Greeting for every input (back commands
included): the next state is the empty state at `MENU` and the payload is
not ready and carries no agent prompt. -/
theorem conv_fresh_state (input : Str) (st0 : Option ConvState)
    (h : st0 = none ∨ ∃ st, st0 = some st ∧ st.step = none) :
    (process_message (some input) st0).1 = { empty_state with step := some (S "MENU") } ∧
    (process_message (some input) st0).2.ready = false ∧
    (process_message (some input) st0).2.agentPrompt = none := by
  have hs : process_message (some input) st0 = process_message (some input) (some empty_state) := by
    rcases h with h | ⟨st, h, hstep⟩
    · subst h
      simp +decide [process_message, empty_state]
    · subst h
      simp +decide [process_message, hstep, empty_state]
  rw [hs]
  by_cases hb : lowerL (trimL input) ∈ BACK_COMMANDS
  · by_cases hnil : trimL input = []
    · rw [hnil] at hb
      exact absurd hb (by decide)
    · have hne : (trimL input).isEmpty = false := by
        cases h2 : trimL input with
        | nil => exact absurd h2 hnil
        | cons c cs => rfl
      simp +decide [process_message, go_back, payload_for_step, hb, hne, empty_state]
  · simp +decide [process_message, payload_for_step, hb, empty_state]

/-- Witness for `conv_fresh_state` at a concrete input. -/
theorem conv_fresh_state_wit :
    (process_message (some (S "back")) none).1 =
      { empty_state with step := some (S "MENU") } ∧
    (process_message (some (S "back")) none).2.ready = false ∧
    (process_message (some (S "back")) none).2.agentPrompt = none :=
  conv_fresh_state (S "back") none (Or.inl rfl)

/-- C3 counterexample: a completed, non-clarification, no-repair run leaves
a trace of exactly 5 steps — `InputGuard`, `IntentGuard`, the retriever,
the generator and the composer.  The Condense, ExtractTerms, AssemblePrompt
and Validate stages append no `ExecutionStep`, so the run does not produce
one step per traversed stage of the claimed 9-stage sequence. -/
theorem trace_steps_cex :
    (run_agent false 4000 [] [S "some draft"] (S "Task: write a full ad about mugs")).1.status
      = S "ok" ∧
    (run_agent false 4000 [] [S "some draft"] (S "Task: write a full ad about mugs")).1.steps.map
        Step.moduleName =
      [S "InputGuard", S "IntentGuard", S "AmazonInspirationRetriever",
       S "AdCopyWriter", S "FinalResponseComposer"] ∧
    (run_agent false 4000 [] [S "some draft"] (S "Task: write a full ad about mugs")).1.steps.length
      = 5 := by
  decide

/-- C3 (amended): only the InputGuard, IntentGuard, Retrieve, Generate,
Repair and Compose states append trace steps (one each); the Condense,
ExtractTerms, AssemblePrompt and Validate stages append none.  Thus a
completed non-clarification run without repair produces exactly the five
steps `InputGuard, IntentGuard, AmazonInspirationRetriever, AdCopyWriter,
FinalResponseComposer`, whatever the generator and retriever return. -/
theorem trace_steps_amended (enableRepair : Bool) (maxChars : Nat) (ctx : Str)
    (gens : List Str) (user_prompt : Str)
    (h1 : (trimL user_prompt).isEmpty = false)
    (h2 : decide (maxChars < (trimL user_prompt).length) = false)
    (h3 : (if fromWizardB (trimL user_prompt) = true then (false, ([] : Str))
           else should_clarify (trimL user_prompt)).1 = false)
    (h4 : (enableRepair && !is_valid_format (trimL (gens.headD []))
            (detect_mode (trimL user_prompt))) = false) :
    (run_agent enableRepair maxChars ctx gens user_prompt).1.steps.map Step.moduleName =
      [S "InputGuard", S "IntentGuard", S "AmazonInspirationRetriever",
       S "AdCopyWriter", S "FinalResponseComposer"] := by
  simp only [run_agent, h1, Bool.false_eq_true, if_false, h2, h3, h4]
  rfl

/-- Witness for `trace_steps_amended` at a concrete input. -/
theorem trace_steps_amended_wit :
    (run_agent false 4000 (S "- red mug with lid") [S "a draft"]
        (S "Product: mug\nTask: write a full ad")).1.steps.map Step.moduleName =
      [S "InputGuard", S "IntentGuard", S "AmazonInspirationRetriever",
       S "AdCopyWriter", S "FinalResponseComposer"] :=
  trace_steps_amended false 4000 (S "- red mug with lid") [S "a draft"]
    (S "Product: mug\nTask: write a full ad")
    (by decide) (by decide) (by decide) (by decide)

/-- C1: when repair is enabled and the draft fails format validation, the
pipeline issues exactly one repair generation call (2 generator calls in
total, with exactly one `FormatRepair` trace step); if the repaired text
also fails validation, the returned response is the original unrepaired
draft, the status is "ok" with no error, and the final trace step is the
composer reporting `repaired = false` and `format_valid = false`.  Format
invalidity alone never produces an error result and never triggers a
second repair call. -/
theorem repair_failure_returns_draft (maxChars : Nat) (ctx : Str)
    (g0 g1 : Str) (gens : List Str) (user_prompt : Str)
    (h1 : (trimL user_prompt).isEmpty = false)
    (h2 : decide (maxChars < (trimL user_prompt).length) = false)
    (h3 : (if fromWizardB (trimL user_prompt) = true then (false, ([] : Str))
           else should_clarify (trimL user_prompt)).1 = false)
    (h4 : is_valid_format (trimL g0) (detect_mode (trimL user_prompt)) = false)
    (h5 : is_valid_format g1 (detect_mode (trimL user_prompt)) = false) :
    (run_agent true maxChars ctx (g0 :: g1 :: gens) user_prompt).2 = 2 ∧
    (run_agent true maxChars ctx (g0 :: g1 :: gens) user_prompt).1.status = S "ok" ∧
    (run_agent true maxChars ctx (g0 :: g1 :: gens) user_prompt).1.error = none ∧
    (run_agent true maxChars ctx (g0 :: g1 :: gens) user_prompt).1.response
      = some (trimL g0) ∧
    (run_agent true maxChars ctx (g0 :: g1 :: gens) user_prompt).1.steps.map Step.moduleName =
      [S "InputGuard", S "IntentGuard", S "AmazonInspirationRetriever",
       S "AdCopyWriter", S "FormatRepair", S "FinalResponseComposer"] ∧
    (run_agent true maxChars ctx (g0 :: g1 :: gens) user_prompt).1.steps.getLast?
      = some (Step.finalComposer false false) := by
  simp only [run_agent, h1, Bool.false_eq_true, if_false, h2, h3,
    List.headD_cons, List.drop_succ_cons, List.drop_zero, h4, h5,
    Bool.not_false, Bool.and_true, if_true, Bool.and_self]
  simp [List.getLast?_concat, Step.moduleName]

/-- Witness for `repair_failure_returns_draft` at a concrete input, with
both the draft and the repair output invalid for the detected mode. -/
theorem repair_failure_returns_draft_wit :
    (run_agent true 4000 [] [S "bad draft", S "still bad"]
        (S "Task: headline only for a mug")).2 = 2 ∧
    (run_agent true 4000 [] [S "bad draft", S "still bad"]
        (S "Task: headline only for a mug")).1.status = S "ok" ∧
    (run_agent true 4000 [] [S "bad draft", S "still bad"]
        (S "Task: headline only for a mug")).1.error = none ∧
    (run_agent true 4000 [] [S "bad draft", S "still bad"]
        (S "Task: headline only for a mug")).1.response = some (trimL (S "bad draft")) ∧
    (run_agent true 4000 [] [S "bad draft", S "still bad"]
        (S "Task: headline only for a mug")).1.steps.map Step.moduleName =
      [S "InputGuard", S "IntentGuard", S "AmazonInspirationRetriever",
       S "AdCopyWriter", S "FormatRepair", S "FinalResponseComposer"] ∧
    (run_agent true 4000 [] [S "bad draft", S "still bad"]
        (S "Task: headline only for a mug")).1.steps.getLast?
      = some (Step.finalComposer false false) :=
  repair_failure_returns_draft 4000 [] (S "bad draft") (S "still bad") []
    (S "Task: headline only for a mug")
    (by decide) (by decide) (by decide) (by decide) (by decide)

/-! ## Stability of the context ranker -/

/-- Membership in a stable descending insertion. -/
theorem mem_insertDesc (f : α → Nat) (x a : α) (l : List α) :
    a ∈ insertDesc f x l ↔ a = x ∨ a ∈ l := by
  induction l with
  | nil => simp [insertDesc]
  | cons y ys ih =>
    by_cases hc : f y ≤ f x
    · simp [insertDesc, hc]
    · simp only [insertDesc, if_neg hc, List.mem_cons, ih]
      tauto

/-- `insertDesc` preserves the descending-sorted invariant. -/
theorem pairwise_insertDesc (f : α → Nat) (x : α) (l : List α)
    (h : List.Pairwise (fun a b => f b ≤ f a) l) :
    List.Pairwise (fun a b => f b ≤ f a) (insertDesc f x l) := by
  induction l with
  | nil => simp [insertDesc]
  | cons y ys ih =>
    rw [List.pairwise_cons] at h
    obtain ⟨hy, hys⟩ := h
    by_cases hc : f y ≤ f x
    · rw [insertDesc, if_pos hc, List.pairwise_cons]
      refine ⟨?_, List.pairwise_cons.mpr ⟨hy, hys⟩⟩
      intro b hb
      rcases List.mem_cons.mp hb with hb | hb
      · exact hb ▸ hc
      · exact le_trans (hy b hb) hc
    · rw [insertDesc, if_neg hc, List.pairwise_cons]
      refine ⟨?_, ih hys⟩
      intro b hb
      rcases (mem_insertDesc f x b ys).mp hb with hb | hb
      · subst hb; omega
      · exact hy b hb

/-- `isortDesc` sorts descendingly by `f`. -/
theorem pairwise_isortDesc (f : α → Nat) (l : List α) :
    List.Pairwise (fun a b => f b ≤ f a) (isortDesc f l) := by
  induction l with
  | nil => simp [isortDesc]
  | cons x xs ih => exact pairwise_insertDesc f x _ ih

/-- Inserting an element of score `k` into a descending-sorted list puts it
in front of every element of score `k` already there. -/
theorem filter_insertDesc (f : α → Nat) (k : Nat) (x : α) (l : List α)
    (hl : List.Pairwise (fun a b => f b ≤ f a) l) (hx : f x = k) :
    (insertDesc f x l).filter (fun s => f s == k) =
      x :: l.filter (fun s => f s == k) := by
  induction l with
  | nil => simp [insertDesc, hx]
  | cons y ys ih =>
    rw [List.pairwise_cons] at hl
    obtain ⟨hy, hys⟩ := hl
    by_cases hc : f y ≤ f x
    · rw [insertDesc, if_pos hc, List.filter_cons, List.filter_cons]
      simp [hx]
    · have hyk : (f y == k) = false := by
        simp only [beq_eq_false_iff_ne, ne_eq]
        omega
      rw [insertDesc, if_neg hc, List.filter_cons, hyk, List.filter_cons, hyk]
      simp only [Bool.false_eq_true, if_false]
      exact ih hys

/-- Inserting an element whose score is not `k` leaves the score-`k`
subsequence untouched. -/
theorem filter_insertDesc_ne (f : α → Nat) (k : Nat) (x : α) (l : List α)
    (hx : (f x == k) = false) :
    (insertDesc f x l).filter (fun s => f s == k) = l.filter (fun s => f s == k) := by
  induction l with
  | nil => simp [insertDesc, hx]
  | cons y ys ih =>
    by_cases hc : f y ≤ f x
    · rw [insertDesc, if_pos hc, List.filter_cons, hx]
      simp
    · rw [insertDesc, if_neg hc, List.filter_cons, List.filter_cons, ih]

/-- Stability of the descending sort: the subsequence of any fixed score
`k` is exactly the input's subsequence of score `k`, in input order. -/
theorem filter_isortDesc (f : α → Nat) (k : Nat) (l : List α) :
    (isortDesc f l).filter (fun s => f s == k) = l.filter (fun s => f s == k) := by
  induction l with
  | nil => rfl
  | cons x xs ih =>
    by_cases hx : f x = k
    · rw [isortDesc, filter_insertDesc f k x _ (pairwise_isortDesc f xs) hx, ih,
        List.filter_cons]
      simp [hx]
    · have hx' : (f x == k) = false := by simpa using hx
      rw [isortDesc, filter_insertDesc_ne f k x _ hx', ih, List.filter_cons, hx']
      simp

/-- The selection loop returns its accumulator extended by a sublist of its
input. -/
theorem pickLoop_sublist (m : Nat) (l : List Str) :
    ∀ (seen acc : List Str),
      ∃ l', pickLoop m seen acc l = acc ++ l' ∧ List.Sublist l' l := by
  induction l with
  | nil =>
    intro seen acc
    exact ⟨[], by simp [pickLoop], List.Sublist.refl []⟩
  | cons s rest ih =>
    intro seen acc
    cases hc : ((trimL (lowerL s)).isEmpty || seen.contains (trimL (lowerL s))) with
    | true =>
      obtain ⟨l', h, hs⟩ := ih seen acc
      exact ⟨l', by rw [pickLoop, if_pos hc, h], hs.cons s⟩
    | false =>
      by_cases h2 : m ≤ acc.length + 1
      · refine ⟨[s], ?_, (List.nil_sublist rest).cons₂ s⟩
        rw [pickLoop, if_neg (by simp at hc ⊢; exact hc), if_pos h2]
      · obtain ⟨l', h, hs⟩ := ih (trimL (lowerL s) :: seen) (acc ++ [s])
        refine ⟨s :: l', ?_, hs.cons₂ s⟩
        rw [pickLoop, if_neg (by simp at hc ⊢; exact hc), if_neg h2, h, List.append_assoc]
        rfl

/-- C7: the context ranker is stable under score ties — if two candidate
lines with equal relevance scores survive into the condensed output (the
`rankedLines`), their relative order there equals their relative order
among the input block's candidate lines. -/
theorem condense_stable (prompt ctx : Str) (s1 s2 : Str)
    (hscore : scoreLine prompt s1 = scoreLine prompt s2)
    (hsub : List.Sublist [s1, s2] (rankedLines prompt ctx 10)) :
    List.Sublist [s1, s2] (candidateLines ctx) := by
  obtain ⟨l', hpick, hsubl⟩ :=
    pickLoop_sublist 10 (isortDesc (scoreLine prompt) (candidateLines ctx)) [] []
  rw [rankedLines, hpick, List.nil_append] at hsub
  have hsorted : List.Sublist [s1, s2] (isortDesc (scoreLine prompt) (candidateLines ctx)) :=
    hsub.trans hsubl
  have hpair : [s1, s2].filter (fun s => scoreLine prompt s == scoreLine prompt s1)
      = [s1, s2] := by
    simp [List.filter_cons, hscore]
  have hfil := hsorted.filter (fun s => scoreLine prompt s == scoreLine prompt s1)
  rw [hpair, filter_isortDesc] at hfil
  exact hfil.trans (List.filter_sublist _)

/-- Witness for `condense_stable` at a concrete input: two zero-score lines
keep their input order in the condensed output. -/
theorem condense_stable_wit :
    List.Sublist [S "alpha one", S "beta two"]
      (candidateLines (S "- alpha one\n- beta two")) :=
  condense_stable (S "mug") (S "- alpha one\n- beta two")
    (S "alpha one") (S "beta two") (by decide) (by decide)

/-! ## Token runs: splitting, character classes -/

/-- A separator character outside the class splits the token runs. -/
theorem runsAux_append_sep (p : Char → Bool) (sep : Char) (hsep : p sep = false) :
    ∀ (a buf b : Str),
      runsAux p buf (a ++ sep :: b) = runsAux p buf a ++ runsAux p [] b := by
  intro a
  induction a with
  | nil =>
    intro buf b
    cases hb : buf.isEmpty with
    | true =>
      rw [List.isEmpty_iff] at hb
      subst hb
      simp [runsAux, hsep]
    | false =>
      simp [runsAux, hsep, hb]
  | cons c cs ih =>
    intro buf b
    cases hpc : p c with
    | true => simp [runsAux, hpc, ih]
    | false =>
      cases hb : buf.isEmpty with
      | true => simp [runsAux, hpc, hb, ih]
      | false => simp [runsAux, hpc, hb, ih]

/-- Every character of every token run satisfies the class predicate. -/
theorem runsAux_chars (p : Char → Bool) :
    ∀ (l buf : Str), (∀ c ∈ buf, p c = true) →
      ∀ t ∈ runsAux p buf l, ∀ c ∈ t, p c = true := by
  intro l
  induction l with
  | nil =>
    intro buf hbuf t ht c hc
    rw [runsAux] at ht
    cases hb : buf.isEmpty with
    | true => rw [hb] at ht; simp at ht
    | false =>
      rw [hb] at ht
      simp only [Bool.false_eq_true, if_false, List.mem_singleton] at ht
      subst ht
      exact hbuf c (List.mem_reverse.mp hc)
  | cons d ds ih =>
    intro buf hbuf t ht c hc
    rw [runsAux] at ht
    cases hpd : p d with
    | true =>
      rw [hpd] at ht
      simp only [if_true] at ht
      refine ih (d :: buf) ?_ t ht c hc
      intro e he
      rcases List.mem_cons.mp he with he | he
      · exact he ▸ hpd
      · exact hbuf e he
    | false =>
      rw [hpd] at ht
      simp only [Bool.false_eq_true, if_false] at ht
      cases hb : buf.isEmpty with
      | true =>
        rw [hb] at ht
        simp only [if_true] at ht
        exact ih [] (by simp) t ht c hc
      | false =>
        rw [hb] at ht
        simp only [Bool.false_eq_true, if_false, List.mem_cons] at ht
        rcases ht with ht | ht
        · subst ht
          exact hbuf c (List.mem_reverse.mp hc)
        · exact ih [] (by simp) t ht c hc

/-- Token runs are never empty. -/
theorem runsAux_ne_nil (p : Char → Bool) :
    ∀ (l buf : Str), ∀ t ∈ runsAux p buf l, t ≠ [] := by
  intro l
  induction l with
  | nil =>
    intro buf t ht
    rw [runsAux] at ht
    cases hb : buf.isEmpty with
    | true => rw [hb] at ht; simp at ht
    | false =>
      rw [hb] at ht
      simp only [Bool.false_eq_true, if_false, List.mem_singleton] at ht
      subst ht
      intro hrev
      rw [List.reverse_eq_nil_iff] at hrev
      subst hrev
      simp at hb
  | cons d ds ih =>
    intro buf t ht
    rw [runsAux] at ht
    cases hpd : p d with
    | true =>
      rw [hpd] at ht
      simp only [if_true] at ht
      exact ih (d :: buf) t ht
    | false =>
      rw [hpd] at ht
      simp only [Bool.false_eq_true, if_false] at ht
      cases hb : buf.isEmpty with
      | true =>
        rw [hb] at ht
        simp only [if_true] at ht
        exact ih [] t ht
      | false =>
        rw [hb] at ht
        simp only [Bool.false_eq_true, if_false, List.mem_cons] at ht
        rcases ht with ht | ht
        · subst ht
          intro hrev
          rw [List.reverse_eq_nil_iff] at hrev
          subst hrev
          simp at hb
        · exact ih [] t ht

/-- Lower-case alphanumeric characters are not whitespace. -/
theorem isLowerAlnum_not_space (c : Char) (h : isLowerAlnum c = true) :
    isPySpace c = false := by
  rw [isLowerAlnum] at h
  rw [isPySpace]
  rcases Bool.or_eq_true_iff.mp h with h1 | h1 <;>
  · rw [Bool.and_eq_true] at h1
    obtain ⟨ha, hb⟩ := h1
    simp only [decide_eq_true_eq] at ha hb
    simp only [Bool.or_eq_false_iff, decide_eq_false_iff_not]
    refine ⟨⟨⟨⟨⟨?_, ?_⟩, ?_⟩, ?_⟩, ?_⟩, ?_⟩ <;> rintro rfl <;> simp_all

/-- A list whose first and last characters are not whitespace is unchanged
by `trimL`. -/
theorem trimL_eq_self (s : Str)
    (h1 : ∀ c, s.head? = some c → isPySpace c = false)
    (h2 : ∀ c, s.getLast? = some c → isPySpace c = false) : trimL s = s := by
  have d1 : s.dropWhile isPySpace = s := by
    cases s with
    | nil => rfl
    | cons c cs =>
      rw [List.dropWhile_cons, h1 c rfl]
      simp
  rw [trimL, d1]
  have d2 : s.reverse.dropWhile isPySpace = s.reverse := by
    cases hr : s.reverse with
    | nil => rfl
    | cons c cs =>
      have hlast : s.getLast? = some c := by
        rw [← List.head?_reverse, hr]
        rfl
      rw [List.dropWhile_cons, h2 c hlast]
      simp
  rw [d2, List.reverse_reverse]

/-- A space-joined list of non-empty alphanumeric tokens is non-empty and
has alphanumeric first and last characters. -/
theorem joinSep_space_ends (parts : List Str)
    (hne : ∀ t ∈ parts, t ≠ [])
    (hch : ∀ t ∈ parts, ∀ c ∈ t, isLowerAlnum c = true)
    (hparts : parts ≠ []) :
    joinSep (S " ") parts ≠ [] ∧
    (∀ c, (joinSep (S " ") parts).head? = some c → isLowerAlnum c = true) ∧
    (∀ c, (joinSep (S " ") parts).getLast? = some c → isLowerAlnum c = true) := by
  induction parts with
  | nil => exact absurd rfl hparts
  | cons x xs ih =>
    cases xs with
    | nil =>
      have hxne : x ≠ [] := hne x (List.mem_cons_self x [])
      refine ⟨hxne, ?_, ?_⟩
      · intro c hc
        refine hch x (List.mem_cons_self x []) c ?_
        cases x with
        | nil => exact absurd rfl hxne
        | cons d ds =>
          rw [show joinSep (S " ") [d :: ds] = d :: ds from rfl] at hc
          rw [List.head?_cons, Option.some.injEq] at hc
          exact hc ▸ List.mem_cons_self d ds
      · intro c hc
        refine hch x (List.mem_cons_self x []) c ?_
        rw [show joinSep (S " ") [x] = x from rfl] at hc
        rw [← List.head?_reverse] at hc
        cases hr : x.reverse with
        | nil =>
          rw [List.reverse_eq_nil_iff] at hr
          exact absurd hr hxne
        | cons d ds =>
          rw [hr, List.head?_cons, Option.some.injEq] at hc
          refine List.mem_reverse.mp ?_
          rw [hr, ← hc]
          exact List.mem_cons_self d ds
    | cons y ys =>
      have hxne : x ≠ [] := hne x (List.mem_cons_self x (y :: ys))
      have hih := ih (fun t ht => hne t (List.mem_cons_of_mem x ht))
        (fun t ht => hch t (List.mem_cons_of_mem x ht)) (by simp)
      obtain ⟨hjne, hjh, hjl⟩ := hih
      have hshape : joinSep (S " ") (x :: y :: ys)
          = x ++ (S " " ++ joinSep (S " ") (y :: ys)) := by
        rw [joinSep, List.append_assoc]
      refine ⟨?_, ?_, ?_⟩
      · rw [hshape]
        intro hcontra
        rw [List.append_eq_nil] at hcontra
        exact hxne hcontra.1
      · intro c hc
        rw [hshape, List.head?_append_of_ne_nil x hxne] at hc
        refine hch x (List.mem_cons_self x (y :: ys)) c ?_
        cases x with
        | nil => exact absurd rfl hxne
        | cons d ds =>
          rw [List.head?_cons, Option.some.injEq] at hc
          exact hc ▸ List.mem_cons_self d ds
      · intro c hc
        rw [hshape,
          List.getLast?_append_of_ne_nil x (by simp [List.append_eq_nil, hjne]),
          List.getLast?_append_of_ne_nil (S " ") hjne] at hc
        exact hjl c hc

/-- C6 counterexample: with `Category: Shoes` and `Product: Boots` the
rewritten query is `"category shoes boots"` — its first token is the
literal biasing word `category`, which is not drawn from either line value,
so "every token … drawn from the Category: and Product: line values" is
false. -/
theorem rewrite_query_literal_cex :
    (catProdScan (pySplitlines (S "Category: Shoes\nProduct: Boots")) ([], [])).1
      = S "Shoes" ∧
    (catProdScan (pySplitlines (S "Category: Shoes\nProduct: Boots")) ([], [])).2
      = S "Boots" ∧
    rewrite_query (S "Category: Shoes\nProduct: Boots") = S "category shoes boots" ∧
    strIn (S "category") (lowerL (S "Shoes")) = false ∧
    strIn (S "category") (lowerL (S "Boots")) = false := by
  decide

/-- The query-token pool of amended claim C6: the fixed biasing word
`category` followed by the alphanumeric tokens of the lowered `Category:`
and `Product:` values, keeping only non-stopword tokens of length at least
3, capped at 12. -/
def categoryQueryTokens (cat prod : Str) : List Str :=
  ((S "category" :: (tokensOf (lowerL cat) ++ tokensOf (lowerL prod))).filter
    (fun t => 3 ≤ t.length && !STOPWORDS.contains t)).take 12

/-- C6 (amended): when both a `Category:` and a `Product:` line with
non-empty values are present, the rewritten query is built from the fixed
biasing word `category` followed only by tokens of those two values: every
token of the query is a lowercase alphanumeric token of length at least 3
that is not a stopword and is either the literal `category` or a token of
one of the two line values, with at most 12 tokens kept. -/
theorem rewrite_query_category_biased (prompt cat prod : Str)
    (hscan : catProdScan (pySplitlines prompt) ([], []) = (cat, prod))
    (hcne : cat ≠ []) (hpne : prod ≠ []) :
    rewrite_query prompt = joinSep (S " ") (categoryQueryTokens cat prod) ∧
    (categoryQueryTokens cat prod).length ≤ 12 ∧
    ∀ t ∈ categoryQueryTokens cat prod,
      (∀ c ∈ t, isLowerAlnum c = true) ∧ 3 ≤ t.length ∧
      STOPWORDS.contains t = false ∧
      (t = S "category" ∨ t ∈ tokensOf (lowerL cat) ∨ t ∈ tokensOf (lowerL prod)) := by
  simp only [categoryQueryTokens]
  set Q := ((S "category" :: (tokensOf (lowerL cat) ++ tokensOf (lowerL prod))).filter
    (fun t => 3 ≤ t.length && !STOPWORDS.contains t)).take 12 with hQ
  have h1 : cat.isEmpty = false := by
    cases cat with
    | nil => exact absurd rfl hcne
    | cons _ _ => rfl
  have h2 : prod.isEmpty = false := by
    cases prod with
    | nil => exact absurd rfl hpne
    | cons _ _ => rfl
  have e1 : lowerL (S "category " ++ cat ++ S " " ++ prod)
      = S "category" ++ ' ' :: (lowerL cat ++ ' ' :: lowerL prod) := by
    simp only [lowerL, List.map_append]
    rw [show (S "category ").map lowerChar = S "category" ++ [' '] from by decide,
        show (S " ").map lowerChar = [' '] from by decide]
    simp [List.append_assoc]
  have htok : tokensOf (lowerL (S "category " ++ cat ++ S " " ++ prod))
      = S "category" :: (tokensOf (lowerL cat) ++ tokensOf (lowerL prod)) := by
    rw [e1, tokensOf,
      runsAux_append_sep isLowerAlnum ' ' (by decide) (S "category") []
        (lowerL cat ++ ' ' :: lowerL prod),
      runsAux_append_sep isLowerAlnum ' ' (by decide) (lowerL cat) [] (lowerL prod),
      show runsAux isLowerAlnum [] (S "category") = [S "category"] from by decide]
    rfl
  have hQprops : ∀ t ∈ Q, (∀ c ∈ t, isLowerAlnum c = true) ∧ 3 ≤ t.length ∧
      STOPWORDS.contains t = false ∧
      (t = S "category" ∨ t ∈ tokensOf (lowerL cat) ∨ t ∈ tokensOf (lowerL prod)) := by
    intro t ht
    rw [hQ] at ht
    have ht2 := (List.take_sublist 12 _).subset ht
    rw [List.mem_filter] at ht2
    obtain ⟨htmem, htpred⟩ := ht2
    rw [Bool.and_eq_true] at htpred
    obtain ⟨hlen, hstop⟩ := htpred
    have hlen' : 3 ≤ t.length := by simpa using hlen
    have hstop' : STOPWORDS.contains t = false := by simpa using hstop
    have hcases : t = S "category" ∨ t ∈ tokensOf (lowerL cat)
        ∨ t ∈ tokensOf (lowerL prod) := by
      rcases List.mem_cons.mp htmem with h | h
      · exact Or.inl h
      · rcases List.mem_append.mp h with h | h
        · exact Or.inr (Or.inl h)
        · exact Or.inr (Or.inr h)
    refine ⟨?_, hlen', hstop', hcases⟩
    rcases hcases with h | h | h
    · subst h; decide
    · exact runsAux_chars isLowerAlnum (lowerL cat) [] (by simp) t h
    · exact runsAux_chars isLowerAlnum (lowerL prod) [] (by simp) t h
  have hQne_tok : ∀ t ∈ Q, t ≠ [] := by
    intro t ht hnil
    have := (hQprops t ht).2.1
    rw [hnil] at this
    simp at this
  have hQne : Q ≠ [] := by
    rw [hQ, List.filter_cons,
      show (3 ≤ (S "category").length && !STOPWORDS.contains (S "category")) = true
        from by decide]
    simp [List.take_succ_cons]
  obtain ⟨hjne, hjh, hjl⟩ :=
    joinSep_space_ends Q hQne_tok (fun t ht => (hQprops t ht).1) hQne
  have htrim : trimL (joinSep (S " ") Q) = joinSep (S " ") Q :=
    trimL_eq_self _ (fun c hc => isLowerAlnum_not_space c (hjh c hc))
      (fun c hc => isLowerAlnum_not_space c (hjl c hc))
  have hjoin_ne : (joinSep (S " ") Q).isEmpty = false := by
    cases hj : joinSep (S " ") Q with
    | nil => exact absurd hj hjne
    | cons _ _ => rfl
  refine ⟨?_, hQ ▸ List.length_take_le 12 _, hQprops⟩
  simp only [rewrite_query, hscan, h1, h2, Bool.not_false, Bool.and_self, if_true]
  rw [htok, ← hQ, htrim, hjoin_ne]
  rfl

/-- Witness for `rewrite_query_category_biased` at a concrete input. -/
theorem rewrite_query_category_biased_wit :
    rewrite_query (S "Category: Shoes\nProduct: Boots")
      = joinSep (S " ") (categoryQueryTokens (S "Shoes") (S "Boots")) ∧
    (categoryQueryTokens (S "Shoes") (S "Boots")).length ≤ 12 ∧
    ∀ t ∈ categoryQueryTokens (S "Shoes") (S "Boots"),
      (∀ c ∈ t, isLowerAlnum c = true) ∧ 3 ≤ t.length ∧
      STOPWORDS.contains t = false ∧
      (t = S "category" ∨ t ∈ tokensOf (lowerL (S "Shoes"))
        ∨ t ∈ tokensOf (lowerL (S "Boots"))) :=
  rewrite_query_category_biased (S "Category: Shoes\nProduct: Boots")
    (S "Shoes") (S "Boots") (by decide) (by decide) (by decide)
